import Mathlib

/-!
Verification of the built-in view-rule registry of the eval-visualization
layer (`src/eval_visualization/eval_visualization.mdesk`), together with a
model of the rule-dispatch pipeline surrounding it.  The mdesk file declares
the table `EV_ViewRuleTable` of built-in view rules with their per-stage
capability marks, and a code-generation directive that expands every row
into an `EV_ViewRuleInfo` descriptor whose hook slots are function
designators.  Both are embedded below, row by row.  Pipeline components
whose C implementation is not part of the available sources (registry
lookup, stage dispatch, inheritance propagation, line stringize) are
modelled from the specification and marked as such in their doc comments.
-/

/-- One row of the `EV_ViewRuleTable` mdesk table
(`eval_visualization.mdesk`, lines 91-108).  The `x`/`-` capability marks
are embedded as `Bool`: `ih` (inherited into child expansions), `ex`
(forces expandability), `xr` (has an expr-resolution hook), `xe` (has
expr-expand-info and expr-expand-range-info hooks). -/
structure EV_ViewRuleTableRow where
  coverage_check : Bool
  name : String
  name_lower : String
  string : String
  ih : Bool
  ex : Bool
  xr : Bool
  xe : Bool
  display_name : String
  docs : Bool
  schema : String
  description : String
deriving DecidableEq

/-- The fourteen rows of `EV_ViewRuleTable`, transcribed field by field from
`eval_visualization.mdesk` lines 94-107. -/
def EV_ViewRuleTable : List EV_ViewRuleTableRow :=
  [{ coverage_check := true, name := "Default", name_lower := "default",
     string := "default", ih := false, ex := false, xr := false, xe := true,
     display_name := "Default", docs := false, schema := "", description := "" },
   { coverage_check := true, name := "Array", name_lower := "array",
     string := "array", ih := false, ex := false, xr := true, xe := false,
     display_name := "Array", docs := true, schema := "x:\x7bexpr\x7d",
     description := "Specifies that a pointer points to N elements, rather than only 1." },
   { coverage_check := true, name := "List", name_lower := "list",
     string := "list", ih := false, ex := false, xr := false, xe := true,
     display_name := "Array", docs := true, schema := "x:\x7bexpr\x7d",
     description := "Specifies that a pointer points to N elements, rather than only 1." },
   { coverage_check := true, name := "Slice", name_lower := "slice",
     string := "slice", ih := false, ex := false, xr := true, xe := false,
     display_name := "Slice", docs := true, schema := "",
     description := "Specifies that a pointer within a struct, also containing an integer, points to the number of elements encoded by the integer." },
   { coverage_check := true, name := "ByteSwap", name_lower := "bswap",
     string := "bswap", ih := true, ex := false, xr := true, xe := false,
     display_name := "Byte Swap", docs := true, schema := "",
     description := "Specifies that all integral evaluations should be byte-swapped, such that their endianness is reversed." },
   { coverage_check := true, name := "Cast", name_lower := "cast",
     string := "cast", ih := false, ex := false, xr := true, xe := false,
     display_name := "Cast", docs := true, schema := "x:\x7btype\x7d",
     description := "Specifies that the expression to which the view rule is applied should be casted to the provided type." },
   { coverage_check := true, name := "Wrap", name_lower := "wrap",
     string := "wrap", ih := false, ex := false, xr := true, xe := false,
     display_name := "Wrap", docs := true, schema := "x:\x7bexpr\x7d",
     description := "Specifies that the expression should be wrapped with the view-rule-specified expression, which will refer to the original expression as `$expr`." },
   { coverage_check := true, name := "Only", name_lower := "only",
     string := "only", ih := true, ex := false, xr := true, xe := false,
     display_name := "Only", docs := true, schema := "",
     description := "Specifies that only the provided member names should be shown in user-defined-type expansions." },
   { coverage_check := true, name := "Omit", name_lower := "omit",
     string := "omit", ih := true, ex := false, xr := true, xe := false,
     display_name := "Omit", docs := true, schema := "",
     description := "Specifies that the provided member names should not be shown in user-defined-type expansions." },
   { coverage_check := true, name := "Bin", name_lower := "bin",
     string := "bin", ih := true, ex := false, xr := false, xe := false,
     display_name := "Display In Binary", docs := true, schema := "",
     description := "Specifies that all numeric values should be shown in base 2 (binary)." },
   { coverage_check := true, name := "Oct", name_lower := "oct",
     string := "oct", ih := true, ex := false, xr := false, xe := false,
     display_name := "Display In Octal", docs := true, schema := "",
     description := "Specifies that all numeric values should be shown in base 8 (octal)." },
   { coverage_check := true, name := "Dec", name_lower := "dec",
     string := "dec", ih := true, ex := false, xr := false, xe := false,
     display_name := "Display In Decimal", docs := true, schema := "",
     description := "Specifies that all numeric values should be shown in base 10 (decimal)." },
   { coverage_check := true, name := "Hex", name_lower := "hex",
     string := "hex", ih := true, ex := false, xr := false, xe := false,
     display_name := "Display In Hexadecimal", docs := true, schema := "",
     description := "Specifies that all numeric values should be shown in base 16 (hexadecimal)." },
   { coverage_check := true, name := "NoAddress", name_lower := "no_addr",
     string := "no_addr", ih := true, ex := false, xr := false, xe := false,
     display_name := "Omit Addresses", docs := true, schema := "",
     description := "Specifies that addresses should be omitted from visualizations, if possible." }]

/-- One generated descriptor of `ev_builtin_view_rule_info_table`.  Each hook
slot holds the *name stem* of the function designator that the code
generator writes into the C array: the macros
`EV_VIEW_RULE_EXPR_..._FUNCTION_NAME(stem)` always produce a concrete
function reference, so the slot type is a plain name, never a null. -/
structure EV_ViewRuleInfo where
  string : String
  flags_inherited : Bool
  flags_expandable : Bool
  expr_resolution : String
  expr_expand_info : String
  expr_expand_range_info : String
  expr_expand_id_from_num : String
  expr_expand_num_from_id : String
deriving DecidableEq

/-- The `@data` expansion of one table row (`eval_visualization.mdesk` line
126): the rule's own `name_lower` is written into a hook slot when the
corresponding capability mark is `x`; otherwise the shared `identity` stem
(resolution) or `nil` stem (both expand hooks) is written.  The two id/num
conversion slots always receive `identity`. -/
def ev_view_rule_info_of_row (a : EV_ViewRuleTableRow) : EV_ViewRuleInfo :=
  { string := a.string
    flags_inherited := a.ih
    flags_expandable := a.ex
    expr_resolution := if a.xr then a.name_lower else "identity"
    expr_expand_info := if a.xe then a.name_lower else "nil"
    expr_expand_range_info := if a.xe then a.name_lower else "nil"
    expr_expand_id_from_num := "identity"
    expr_expand_num_from_id := "identity" }

/-- The generated constant array `ev_builtin_view_rule_info_table`
(`eval_visualization.mdesk` lines 123-127): the `@expand` directive maps
every row of `EV_ViewRuleTable` through the descriptor template. -/
def ev_builtin_view_rule_info_table : List EV_ViewRuleInfo :=
  EV_ViewRuleTable.map ev_view_rule_info_of_row

/-- Exact-match, case-sensitive lookup of a built-in descriptor by its
registered `string` name. -/
def ev_view_rule_info_from_string (s : String) : Option EV_ViewRuleInfo :=
  ev_builtin_view_rule_info_table.find? (fun i => i.string == s)

/-- The pipeline stages for which a descriptor of this (non-graphical) layer
can carry a hook slot.  The descriptor struct has slots for the resolution
stage and the two expand hooks only; line stringize has no hook slot at this
layer. -/
inductive EV_Stage where
  | resolution
  | expand
  | stringize
deriving DecidableEq

/-- The set of stages for which a generated descriptor supplies a
rule-specific hook: a slot supplies a hook exactly when it does not hold the
shared `identity` (resolution) or `nil` (expand) stub stem. -/
def descriptorHookStages (i : EV_ViewRuleInfo) : List EV_Stage :=
  (if i.expr_resolution ≠ "identity" then [EV_Stage.resolution] else []) ++
  (if i.expr_expand_info ≠ "nil" then [EV_Stage.expand] else [])

/-- The stage column of the specification's built-in rule table (spec
section 4.6), transcribed in the spec's own words, for comparison against
the stages the generated descriptors actually hook. -/
def specRuleTableStages : List (String × List EV_Stage) :=
  [("array", [EV_Stage.resolution]),
   ("cast", [EV_Stage.resolution]),
   ("wrap", [EV_Stage.resolution]),
   ("slice", [EV_Stage.resolution, EV_Stage.expand]),
   ("list", [EV_Stage.expand]),
   ("bin", [EV_Stage.stringize]),
   ("oct", [EV_Stage.stringize]),
   ("dec", [EV_Stage.stringize]),
   ("hex", [EV_Stage.stringize]),
   ("bswap", [EV_Stage.stringize, EV_Stage.expand]),
   ("only", [EV_Stage.expand]),
   ("omit", [EV_Stage.expand]),
   ("no_addr", [EV_Stage.stringize])]

/-- The nil descriptor: a stored passthrough marker with no flags, the
identity resolution stub and the nil expand stubs.  Modelled from the spec:
the C object backing "Unknown `ruleName` resolves to a stored passthrough
marker" (spec section 3) is not among the available sources. -/
def ev_nil_view_rule_info : EV_ViewRuleInfo :=
  { string := ""
    flags_inherited := false
    flags_expandable := false
    expr_resolution := "identity"
    expr_expand_info := "nil"
    expr_expand_range_info := "nil"
    expr_expand_id_from_num := "identity"
    expr_expand_num_from_id := "identity" }

/-- Outcome of resolving a rule-application name against the registry: the
descriptor to dispatch with, and whether an unknown-rule warning is
surfaced. -/
structure EV_RuleLookupResult where
  info : EV_ViewRuleInfo
  unknownRuleWarning : Bool
deriving DecidableEq

/-- Modelled from the spec: the registry lookup with no-op fallback.  The C
function that resolves a rule-application name to a descriptor is not among
the available sources; only the descriptor table it searches is.  Per the
spec (sections 3 and 7), lookup is exact-match and case-sensitive, and an
unknown name resolves to the stored passthrough no-op descriptor plus a
surfaced warning instead of aborting. -/
def ev_rule_lookup (s : String) : EV_RuleLookupResult :=
  match ev_builtin_view_rule_info_table.find? (fun i => i.string == s) with
  | some i => { info := i, unknownRuleWarning := false }
  | none => { info := ev_nil_view_rule_info, unknownRuleWarning := true }

/-- One rule application attached to an expression node: a
`(ruleName, rawArgumentText)` pair (spec section 3). -/
structure RuleApplication where
  ruleName : String
  argText : String
deriving DecidableEq

/-- A resolved node, reduced to the parts the dispatch model needs: its
expression text and the name of its (possibly rule-rewritten) type. -/
structure ResolvedNode where
  expr : String
  tyName : String
deriving DecidableEq

/-- Modelled from the spec: the type shapes driving default expansion and
stringization.  Struct members refer to their member types by name through
an environment, so self-referential (cyclic) aggregates are expressible. -/
inductive EV_Ty where
  | intTy (byteCount : Nat)
  | ptrTy (pointee : String)
  | structTy (fields : List (String × String))
deriving DecidableEq

/-- Name resolution in a type environment. -/
def lookupTy (env : List (String × EV_Ty)) (n : String) : Option EV_Ty :=
  (env.find? (fun p => p.1 == n)).map (fun p => p.2)

/-- Modelled from the spec: semantics of rule-specific resolution hooks
(spec sections 4.3 and 4.6).  `identity` is the shared passthrough stub;
`cast` retypes the node; `wrap` substitutes the original expression for the
`$expr` placeholder; the remaining rule-specific resolution rewrites are
abstracted as a marking of the expression text. -/
def applyResolutionHook (stem : String) (arg : String) (n : ResolvedNode) : ResolvedNode :=
  if stem == "identity" then n
  else if stem == "cast" then { n with tyName := arg }
  else if stem == "wrap" then { n with expr := arg.replace "$expr" n.expr }
  else { n with expr := stem ++ "(" ++ n.expr ++ ")" }

/-- Modelled from the spec: the resolution-stage dispatcher (spec section
4.3).  Each application's name is looked up in the registry (one consult
per application) and its resolution hook runs in list order, each hook
seeing the node produced by the previous one.  Returns the resolved node
together with the number of registry consultations performed. -/
def ev_resolution_dispatch (apps : List RuleApplication) (n : ResolvedNode) :
    ResolvedNode × Nat :=
  apps.foldl
    (fun acc app =>
      let r := ev_rule_lookup app.ruleName
      (applyResolutionHook r.info.expr_resolution app.argText acc.1, acc.2 + 1))
    (n, 0)

/-- Modelled from the spec: the pure type-driven default expansion (spec
section 4.3): a struct exposes its members, a pointer-to-composite exposes
one pointee, anything else is a leaf. -/
def typeDrivenDefaultChildCount (env : List (String × EV_Ty)) (n : ResolvedNode) : Nat :=
  match lookupTy env n.tyName with
  | some (EV_Ty.structTy fields) => fields.length
  | some (EV_Ty.ptrTy _) => 1
  | _ => 0

/-- Modelled from the spec: semantics of expand-info hooks.  The shared
`nil` stub passes the previously computed count through; the `default`
rule's own hook computes the type-driven default; custom producers (such as
`list`) depend on target memory, which is external, and are abstracted as
passthrough. -/
def applyExpandHook (env : List (String × EV_Ty)) (stem : String)
    (n : ResolvedNode) (prev : Nat) : Nat :=
  if stem == "nil" then prev
  else if stem == "default" then typeDrivenDefaultChildCount env n
  else prev

/-- Modelled from the spec: the expand-info dispatcher (spec section 4.3),
starting from the type-driven default and folding each application's
expand-info hook over it, with one registry consult per application.
Returns the child count together with the number of registry
consultations. -/
def ev_expand_dispatch (env : List (String × EV_Ty)) (apps : List RuleApplication)
    (n : ResolvedNode) : Nat × Nat :=
  apps.foldl
    (fun acc app =>
      let r := ev_rule_lookup app.ruleName
      (applyExpandHook env r.info.expr_expand_info n acc.1, acc.2 + 1))
    (typeDrivenDefaultChildCount env n, 0)

/-- Modelled from the spec: the per-dispatch inherited formatting state
(spec section 3, `StageContext`): current radix, byte-order reversal flag,
address-omission flag and member allow/deny lists. -/
structure StageContext where
  radix : Nat
  byteSwap : Bool
  noAddr : Bool
  onlyNames : Option (List String)
  omitNames : List String
deriving DecidableEq

/-- The context before any formatting rule applies: decimal radix, no byte
swap, addresses shown, no member filtering. -/
def defaultStageContext : StageContext :=
  { radix := 10, byteSwap := false, noAddr := false, onlyNames := none, omitNames := [] }

/-- Splitting a comma-separated member-name argument. -/
def splitNames (s : String) : List String :=
  s.splitOn ","

/-- Modelled from the spec: how one looked-up rule updates the inherited
formatting state (spec sections 3 and 4.6).  Keyed on the descriptor's
registered name, so an unknown application (nil descriptor, empty name)
changes nothing.  Radix rules overwrite, so the last one wins. -/
def applyContextRule (ctx : StageContext) (i : EV_ViewRuleInfo) (arg : String) :
    StageContext :=
  if i.string == "bin" then { ctx with radix := 2 }
  else if i.string == "oct" then { ctx with radix := 8 }
  else if i.string == "dec" then { ctx with radix := 10 }
  else if i.string == "hex" then { ctx with radix := 16 }
  else if i.string == "bswap" then { ctx with byteSwap := true }
  else if i.string == "no_addr" then { ctx with noAddr := true }
  else if i.string == "only" then { ctx with onlyNames := some (splitNames arg) }
  else if i.string == "omit" then { ctx with omitNames := ctx.omitNames ++ splitNames arg }
  else ctx

/-- The explicit elision marker emitted when a stringize budget is
exhausted. -/
def elisionMarker : String := "..."

/-- Reversal of the byte order of a `byteCount`-byte value. -/
def byteSwapValue (byteCount v : Nat) : Nat :=
  (List.range byteCount).foldl (fun acc i => acc * 256 + v / 256 ^ i % 256) 0

/-- Rendering of an integral value under the inherited formatting state.
Memory reads are supplied by an external provider (spec section 6); the
model reads a fixed sample bit pattern. -/
def renderIntValue (ctx : StageContext) (byteCount : Nat) : String :=
  let sample := 42 % 2 ^ (8 * byteCount)
  let v := if ctx.byteSwap then byteSwapValue byteCount sample else sample
  String.mk (Nat.toDigits ctx.radix v)

/-- Whether a struct member is shown under the active allow/deny lists. -/
def memberShown (ctx : StageContext) (memberName : String) : Bool :=
  (match ctx.onlyNames with
   | some allow => allow.contains memberName
   | none => true) &&
  !(ctx.omitNames.contains memberName)

/-- Modelled from the spec: the recursive line-stringize stage (spec
section 4.3).  The recursion carries a character budget `c` and a depth
budget `d`; every recursive call passes `c - 1` and `d - 1`, and an
exhausted budget yields the explicit elision marker.  The environment may
contain cyclic types (a struct whose member type names it), which is why
the budgets, not the type structure, drive termination. -/
def lineStringize (env : List (String × EV_Ty)) (ctx : StageContext) :
    Nat → Nat → String → String
  | 0, _, _ => elisionMarker
  | _ + 1, 0, _ => elisionMarker
  | c + 1, d + 1, tyName =>
    match lookupTy env tyName with
    | none => "<" ++ tyName ++ ">"
    | some (EV_Ty.intTy w) => renderIntValue ctx w
    | some (EV_Ty.ptrTy p) =>
      (if ctx.noAddr then "<addr> " else "0x0 ") ++ lineStringize env ctx c d p
    | some (EV_Ty.structTy fields) =>
      let shown := fields.filter (fun f => memberShown ctx f.1)
      "(" ++ String.intercalate ", "
        (shown.map (fun f => f.1 ++ " = " ++ lineStringize env ctx c d f.2)) ++ ")"

/-- The recursion depth actually used by `lineStringize` on the same
input: 0 at leaves and exhausted budgets, one plus the deepest recursive
call otherwise. -/
def stringizeDepthUsed (env : List (String × EV_Ty)) (ctx : StageContext) :
    Nat → Nat → String → Nat
  | 0, _, _ => 0
  | _ + 1, 0, _ => 0
  | c + 1, d + 1, tyName =>
    match lookupTy env tyName with
    | none => 0
    | some (EV_Ty.intTy _) => 0
    | some (EV_Ty.ptrTy p) => stringizeDepthUsed env ctx c d p + 1
    | some (EV_Ty.structTy fields) =>
      (fields.map (fun f => stringizeDepthUsed env ctx c d f.2)).foldl max 0 + 1

/-- Modelled from the spec: the stringize-stage dispatcher.  The inherited
formatting state is accumulated from the applications in list order (one
registry consult per application), then the recursive line stringizer runs
under that state and the caller-supplied budgets.  Returns the rendered
text together with the number of registry consultations. -/
def ev_stringize_dispatch (env : List (String × EV_Ty)) (apps : List RuleApplication)
    (c d : Nat) (n : ResolvedNode) : String × Nat :=
  let folded := apps.foldl
    (fun (acc : StageContext × Nat) app =>
      let r := ev_rule_lookup app.ruleName
      (applyContextRule acc.1 r.info app.argText, acc.2 + 1))
    (defaultStageContext, 0)
  (lineStringize env folded.1 c d n.tyName, folded.2)

/-- Whether an application's rule is flagged `Inherited` in the registry
(unknown rules fall back to the nil descriptor, which is not inherited). -/
def ruleAppInherited (app : RuleApplication) : Bool :=
  (ev_rule_lookup app.ruleName).info.flags_inherited

/-- Modelled from the spec: the inheritance propagator (spec section 4.5).
When expanding a node into a child, the child's effective rule list is the
parent's `Inherited`-flagged applications — minus those overridden by an
identically named explicit application on the child — followed by the
child's own explicit applications. -/
def childEffectiveRules (parentRules childExplicit : List RuleApplication) :
    List RuleApplication :=
  parentRules.filter
    (fun a => ruleAppInherited a &&
      !(childExplicit.any (fun c => c.ruleName == a.ruleName))) ++
  childExplicit

/-- The effective rule list reached by descending from a root node along a
chain of children, each given by its own explicit application list. -/
def effectiveRulesAlong (rootRules : List RuleApplication) :
    List (List RuleApplication) → List RuleApplication
  | [] => rootRules
  | childExpr :: rest => effectiveRulesAlong (childEffectiveRules rootRules childExpr) rest

/-- Every descriptor of the generated built-in table has the `Expandable`
flag unset. -/
theorem builtin_table_not_expandable :
    ∀ i ∈ ev_builtin_view_rule_info_table, i.flags_expandable = false := by decide

/-- Registry lookup never yields a descriptor with the `Expandable` flag:
built-in descriptors all have it unset, and the nil fallback does too. -/
theorem ev_rule_lookup_not_expandable (s : String) :
    (ev_rule_lookup s).info.flags_expandable = false := by
  unfold ev_rule_lookup
  cases h : ev_builtin_view_rule_info_table.find? (fun i => i.string == s) with
  | none => rfl
  | some i => exact builtin_table_not_expandable i (List.mem_of_find?_eq_some h)

/-- C1.  The claim — that every built-in descriptor supplies hooks for
exactly the stages listed in the spec's rule table — is false on the
generated table: at `slice` the spec table lists resolution and expand,
but the descriptor's expand-info slot holds the `nil` stub, so its hook
stages are `[resolution]` alone (and likewise `bswap` hooks only
resolution, not stringize/expand). -/
theorem C1_counterexample :
    ¬ (∀ p ∈ specRuleTableStages, ∀ i ∈ ev_builtin_view_rule_info_table,
        i.string = p.1 → descriptorHookStages i = p.2) := by decide

/-- C1 (amended).  The stages each generated built-in descriptor actually
hooks: `slice` and `bswap` supply a resolution hook only; `default` and
`list` supply the expand hooks only; `array`, `cast`, `wrap`, `only` and
`omit` supply a resolution hook only; the radix rules and `no_addr` supply
no stage hook at all (their effect rides on the `Inherited` flag), and no
descriptor of this layer carries a stringize hook slot. -/
theorem C1_amended_descriptor_hook_stages :
    ev_builtin_view_rule_info_table.map (fun i => (i.string, descriptorHookStages i)) =
      [("default", [EV_Stage.expand]),
       ("array", [EV_Stage.resolution]),
       ("list", [EV_Stage.expand]),
       ("slice", [EV_Stage.resolution]),
       ("bswap", [EV_Stage.resolution]),
       ("cast", [EV_Stage.resolution]),
       ("wrap", [EV_Stage.resolution]),
       ("only", [EV_Stage.resolution]),
       ("omit", [EV_Stage.resolution]),
       ("bin", []), ("oct", []), ("dec", []), ("hex", []), ("no_addr", [])] := by decide

/-- C4.  Each of the built-in rules `bin`, `oct`, `dec`, `hex`, `only` and
`omit` carries the `Inherited` flag in the generated descriptor table. -/
theorem C4_inherited_flags :
    ((["bin", "oct", "dec", "hex", "only", "omit"] : List String).all fun s =>
      ((ev_view_rule_info_from_string s).map (fun i => i.flags_inherited)).getD false) =
      true := by decide

/-- C5.  The claim — that a stage hook a rule does not declare is stored as
an explicit no-hook marker rather than a trivial stub function — is false:
for the rows without the `xr` mark (e.g. `bin`) the generated descriptor's
resolution slot holds the shared `identity` stub stem, and for the rows
without the `xe` mark the expand-info slot holds the shared `nil` stub
stem. -/
theorem C5_counterexample :
    ¬ (∀ a ∈ EV_ViewRuleTable,
        (a.xr = false → (ev_view_rule_info_of_row a).expr_resolution ≠ "identity") ∧
        (a.xe = false → (ev_view_rule_info_of_row a).expr_expand_info ≠ "nil")) := by decide

/-- C5 (amended).  Every hook slot of every generated descriptor is a
populated function designator: the rows lacking a resolution hook all store
the shared `identity` stub there, the rows lacking the expand hooks all
store the shared `nil` stub in both expand slots, and dispatch therefore
calls the stored function unconditionally instead of branching on a null
marker. -/
theorem C5_amended_stub_hooks :
    (ev_builtin_view_rule_info_table.filter
        (fun i => i.expr_resolution == "identity")).map (fun i => i.string) =
      ["default", "list", "bin", "oct", "dec", "hex", "no_addr"] ∧
    (ev_builtin_view_rule_info_table.filter
        (fun i => i.expr_expand_info == "nil")).map (fun i => i.string) =
      ["array", "slice", "bswap", "cast", "wrap", "only", "omit",
       "bin", "oct", "dec", "hex", "no_addr"] ∧
    (ev_builtin_view_rule_info_table.all fun i =>
      (i.expr_expand_range_info == "nil") == (i.expr_expand_info == "nil")) = true := by
  refine ⟨by decide, by decide, by decide⟩

/-- C8.  The `default` descriptor carries neither the `Inherited` nor the
`Expandable` flag, its resolution slot holds the `identity` stub (no
resolution hook), and it supplies its own `default` expand-info and
expand-range-info hooks — type-driven default expansion is this rule's own
hook pair, not the `nil` path. -/
theorem C8_default_descriptor :
    (ev_view_rule_info_from_string "default").map
        (fun i => (i.flags_inherited, i.flags_expandable, i.expr_resolution,
          i.expr_expand_info, i.expr_expand_range_info)) =
      some (false, false, "identity", "default", "default") := by decide

/-- C9.  No built-in rule sets the forced-expandable capability: the `ex`
mark is unset on every row of `EV_ViewRuleTable`, the `Expandable` flag is
unset on every generated descriptor, and consequently no registry lookup —
known name or nil fallback — ever reports a forced-expandable rule. -/
theorem C9_no_forced_expandable :
    (EV_ViewRuleTable.all fun a => !a.ex) = true ∧
    (ev_builtin_view_rule_info_table.all fun i => !i.flags_expandable) = true ∧
    ∀ s : String, (ev_rule_lookup s).info.flags_expandable = false :=
  ⟨by decide, by decide, ev_rule_lookup_not_expandable⟩

/-- C10.  In the generated table, a descriptor's expand-info slot holds a
rule-specific hook exactly when its expand-range-info slot does (both are
driven by the same `xe` mark), and every descriptor's expand-id-from-num
and expand-num-from-id slots hold the `identity` conversion, so a child's
visible ordinal and its stable identifier coincide for all built-in
rules. -/
theorem C10_expand_hooks_paired :
    (ev_builtin_view_rule_info_table.all fun i =>
      (i.expr_expand_info != "nil") == (i.expr_expand_range_info != "nil")) = true ∧
    (ev_builtin_view_rule_info_table.all fun i =>
      (i.expr_expand_id_from_num == "identity") &&
      (i.expr_expand_num_from_id == "identity")) = true := by
  refine ⟨by decide, by decide⟩

/-- C2.  Every rule-application name has exactly one of two lookup
outcomes: it matches a registered descriptor exactly (no warning), or it
resolves to the stored passthrough no-op descriptor with a surfaced
warning; the lookup is total, so no name aborts the node's pipeline. -/
theorem C2_unknown_rule_fallback :
    ∀ s : String,
      (∃ i, i ∈ ev_builtin_view_rule_info_table ∧ i.string = s ∧
        ev_rule_lookup s = { info := i, unknownRuleWarning := false }) ∨
      (ev_rule_lookup s = { info := ev_nil_view_rule_info, unknownRuleWarning := true } ∧
        ∀ i ∈ ev_builtin_view_rule_info_table, i.string ≠ s) := by
  intro s
  cases h : ev_builtin_view_rule_info_table.find? (fun i => i.string == s) with
  | some i =>
    left
    refine ⟨i, List.mem_of_find?_eq_some h, ?_, ?_⟩
    · simpa using List.find?_some h
    · simp [ev_rule_lookup, h]
  | none =>
    right
    refine ⟨by simp [ev_rule_lookup, h], ?_⟩
    intro i hi heq
    have hp := List.find?_eq_none.mp h i hi
    simp [heq] at hp

/-- C3.  With an empty rule-application list, the resolution stage returns
its input node unchanged, the expand stage returns the pure type-driven
default child count, and the stringize stage renders under the default
inherited formatting state — and each dispatcher reports zero registry
consultations. -/
theorem C3_empty_rule_list_default :
    ∀ (env : List (String × EV_Ty)) (n : ResolvedNode) (c d : Nat),
      ev_resolution_dispatch [] n = (n, 0) ∧
      ev_expand_dispatch env [] n = (typeDrivenDefaultChildCount env n, 0) ∧
      ev_stringize_dispatch env [] c d n =
        (lineStringize env defaultStageContext c d n.tyName, 0) := by
  intro env n c d
  exact ⟨rfl, rfl, rfl⟩

/-- C6.  Membership in a child's effective rule list is exactly: the
child's own explicit applications, plus those parent applications that are
`Inherited`-flagged and not overridden by an identically named explicit
application on the child; and a non-`Inherited` application found on any
descendant's effective list can only come from one of the descendants' own
explicit lists, never from the root. -/
theorem C6_inheritance_propagation :
    (∀ (parentRules childExplicit : List RuleApplication) (app : RuleApplication),
      app ∈ childEffectiveRules parentRules childExplicit ↔
        (app ∈ childExplicit ∨
          (app ∈ parentRules ∧ ruleAppInherited app = true ∧
            ∀ c ∈ childExplicit, c.ruleName ≠ app.ruleName))) ∧
    (∀ (rootRules childExpr : List RuleApplication)
        (rest : List (List RuleApplication)) (app : RuleApplication),
      ruleAppInherited app = false →
      app ∈ effectiveRulesAlong rootRules (childExpr :: rest) →
      ∃ l, l ∈ childExpr :: rest ∧ app ∈ l) := by
  constructor
  · intro p ce app
    simp only [childEffectiveRules, List.mem_append, List.mem_filter,
      Bool.and_eq_true, Bool.not_eq_true', List.any_eq_false, beq_iff_eq]
    constructor
    · rintro (⟨hp, hinh, hno⟩ | hc)
      · exact Or.inr ⟨hp, hinh, hno⟩
      · exact Or.inl hc
    · rintro (hc | ⟨hp, hinh, hno⟩)
      · exact Or.inr hc
      · exact Or.inl ⟨hp, hinh, hno⟩
  · intro root ce rest app hinh
    induction rest generalizing root ce with
    | nil =>
      intro hmem
      refine ⟨ce, by simp, ?_⟩
      have hmem' : app ∈ childEffectiveRules root ce := by
        simpa [effectiveRulesAlong] using hmem
      rcases List.mem_append.mp hmem' with hf | hc
      · have hfl := (List.mem_filter.mp hf).2
        rw [Bool.and_eq_true, hinh] at hfl
        simp at hfl
      · exact hc
    | cons ce2 rest2 ih =>
      intro hmem
      have hmem' : app ∈ effectiveRulesAlong (childEffectiveRules root ce) (ce2 :: rest2) := by
        simpa [effectiveRulesAlong] using hmem
      obtain ⟨l, hl, hal⟩ := ih (childEffectiveRules root ce) ce2 hmem'
      exact ⟨l, List.mem_cons_of_mem ce hl, hal⟩

/-- C6 witness: a concrete descent in which a non-`Inherited` application
(`cast`) appears on the descendant's effective list, and indeed only
because the descendant's own explicit list carries it. -/
theorem C6_inheritance_propagation_witness :
    ruleAppInherited { ruleName := "cast", argText := "int" } = false ∧
    ({ ruleName := "cast", argText := "int" } : RuleApplication) ∈
      effectiveRulesAlong [] [[{ ruleName := "cast", argText := "int" }]] ∧
    ∃ l, l ∈ ([[{ ruleName := "cast", argText := "int" }]] :
        List (List RuleApplication)) ∧
      ({ ruleName := "cast", argText := "int" } : RuleApplication) ∈ l :=
  ⟨by decide, by decide,
    C6_inheritance_propagation.2 [] [{ ruleName := "cast", argText := "int" }] []
      { ruleName := "cast", argText := "int" } (by decide) (by decide)⟩

/-- A left fold of `max` stays below a bound that dominates the seed and
every list element. -/
theorem foldl_max_le_of_forall (l : List Nat) (k a : Nat) (ha : a ≤ k)
    (h : ∀ x ∈ l, x ≤ k) : l.foldl max a ≤ k := by
  induction l generalizing a with
  | nil => simpa using ha
  | cons x xs ih =>
    exact ih (max a x) (max_le ha (h x (by simp))) (fun y hy => h y (by simp [hy]))

/-- The recursion depth used by the line stringizer never exceeds the depth
budget, on any environment — cyclic ones included. -/
theorem stringizeDepthUsed_le_budget (env : List (String × EV_Ty))
    (ctx : StageContext) :
    ∀ (d c : Nat) (tyName : String), stringizeDepthUsed env ctx c d tyName ≤ d := by
  intro d
  induction d with
  | zero =>
    intro c tyName
    cases c <;> simp [stringizeDepthUsed]
  | succ d ih =>
    intro c tyName
    cases c with
    | zero => simp [stringizeDepthUsed]
    | succ c =>
      simp only [stringizeDepthUsed]
      cases h : lookupTy env tyName with
      | none => simp
      | some t =>
        cases t with
        | intTy w => simp
        | ptrTy p => simpa using Nat.succ_le_succ (ih c p)
        | structTy fields =>
          simp only []
          refine Nat.succ_le_succ ?_
          refine foldl_max_le_of_forall _ d 0 (Nat.zero_le d) ?_
          intro x hx
          obtain ⟨f, _, rfl⟩ := List.mem_map.mp hx
          exact ih c f.2

/-- C7.  The line stringizer's two budgets guarantee termination: an
exhausted character budget or depth budget immediately yields the explicit
elision marker, and on every input — including environments with cyclic
type structure — the recursion depth actually used is bounded by the depth
budget. -/
theorem C7_stringize_budgets :
    ∀ (env : List (String × EV_Ty)) (ctx : StageContext) (c d : Nat)
      (tyName : String),
      lineStringize env ctx 0 d tyName = elisionMarker ∧
      lineStringize env ctx c 0 tyName = elisionMarker ∧
      stringizeDepthUsed env ctx c d tyName ≤ d := by
  intro env ctx c d tyName
  refine ⟨rfl, ?_, stringizeDepthUsed_le_budget env ctx d c tyName⟩
  cases c with
  | zero => rfl
  | succ c => rfl
